import Mathlib

/-!
Verification of the sandbox execution orchestrator of code-sandbox-mcp.

The Go source is embedded shallowly: pure helpers become Lean functions,
and the orchestration flows (`RunCodeSandbox` / `runInDocker` in
run_code.go, `runProjectInDocker` in run_project.go, and the artifact
collector in resources/container_artifacts.go) become functions over an
explicit "world" of oracle outcomes for each fallible external operation
(docker client creation, image pull, filesystem operations, container
create/start/wait, log fetch).  Machine-independent data (strings, lists)
is modelled directly.

The `languages` package (the per-language profile table and the
import-scanning helpers) is not part of the provided sources; where a
definition depends on it, the definition is modelled from the spec and
marked as such in its doc comment.
-/

namespace Sandbox

/-- `String.intercalate " "`, modelling Go's `strings.Join(xs, " ")`. -/
def sjoin (xs : List String) : String := String.intercalate " " xs

/-- Models Go's `strings.Join(xs, "\n")`. -/
def njoin (xs : List String) : String := String.intercalate "\n" xs

/-- Whitespace as trimmed by Go's `strings.TrimSpace` (restricted to the
ASCII whitespace characters, which are the ones occurring in source
files). -/
def spaceChar (c : Char) : Bool :=
  c = ' ' ∨ c = '\t' ∨ c = '\n' ∨ c = '\r' ∨ c = '\u000B' ∨ c = '\u000C'

/-- Models Go's `strings.TrimSpace`: remove leading and trailing
whitespace. -/
def trimSpace (s : String) : String :=
  String.mk (((s.toList.dropWhile spaceChar).reverse.dropWhile spaceChar).reverse)

/-- Boolean test that `pat` is a leading segment of `l` (spelled out so that
no library lemma about it is needed). -/
def listStarts : List Char → List Char → Bool
  | [], _ => true
  | _ :: _, [] => false
  | a :: as, b :: bs => a = b && listStarts as bs

/-- Models Go's `strings.TrimPrefix(s, pre)`: removes `pre` from the front
of `s` when present, otherwise returns `s` unchanged. -/
def trimPre (pre s : String) : String :=
  if listStarts pre.toList s.toList then String.mk (s.toList.drop pre.toList.length) else s

/-- True when the string contains no `/` (a plain file name, as returned by
`os.ReadDir`). -/
def slashFree (s : String) : Bool := s.toList.all (fun c => c ≠ '/')

/-- Models Go's `filepath.Base` on the slash-terminated-free paths the code
builds: the part after the last `/`. -/
def baseName (p : String) : String :=
  String.mk ((p.toList.reverse.takeWhile (fun c => c ≠ '/')).reverse)

/-- Models Go's `filepath.Ext`: the suffix of the final path element
starting at its last dot, or `""` when it has no dot. -/
def extOf (f : String) : String :=
  let rev := (baseName f).toList.reverse
  let pre := rev.takeWhile (fun c => c ≠ '.')
  if pre.length = rev.length then "" else String.mk ('.' :: pre.reverse)

section ListHelpers

/-- One step of Go's map-backed de-duplication: the key list of a
`map[string]bool` after inserting `r`, keys kept in insertion order. -/
def insertKey (acc : List String) (r : String) : List String :=
  if r ∈ acc then acc else acc ++ [r]

/-- De-duplicate keeping the first occurrence of each string; the key list,
in insertion order, of a Go `map[string]bool` filled by a loop. -/
def dedupFirst (l : List String) : List String := l.foldl insertKey []

theorem mem_insertKey {acc : List String} {r x : String} :
    x ∈ insertKey acc r ↔ x ∈ acc ∨ x = r := by
  unfold insertKey
  split
  · constructor
    · exact Or.inl
    · rintro (h | rfl) <;> assumption
  · simp [List.mem_append]

theorem insertKey_nodup {acc : List String} {r : String} (h : acc.Nodup) :
    (insertKey acc r).Nodup := by
  unfold insertKey
  split
  · exact h
  · simpa [List.nodup_append] using ⟨h, by assumption⟩

theorem mem_foldl_insertKey (l : List String) :
    ∀ acc x, x ∈ l.foldl insertKey acc ↔ x ∈ acc ∨ x ∈ l := by
  induction l with
  | nil => simp
  | cons a t ih =>
      intro acc x
      simp only [List.foldl_cons, ih, mem_insertKey, List.mem_cons]
      tauto

theorem foldl_insertKey_nodup (l : List String) :
    ∀ acc, acc.Nodup → (l.foldl insertKey acc).Nodup := by
  induction l with
  | nil => intro acc h; simpa using h
  | cons a t ih => intro acc h; exact ih _ (insertKey_nodup h)

end ListHelpers

section ProgressLoop

/-- The progress update performed in the `default` branch of the polling
loop of `RunCodeSandbox` (run_code.go): `if progress >= 90 && progress <
100 { progress = progress + 1 } else { progress = progress + 5 }`. -/
def progressStep (p : Nat) : Nat :=
  if 90 ≤ p ∧ p < 100 then p + 1 else p + 5

/-- The values sent by `n` consecutive `default`-branch iterations of the
polling loop, starting from the stored counter `p` (the loop updates the
counter first, then sends it). -/
def loopEmits : Nat → Nat → List Nat
  | _, 0 => []
  | p, Nat.succ k => (progressStep p) :: loopEmits (progressStep p) k

/-- The full sequence of progress values sent for one `RunCodeSandbox`
request whose result arrives after `n` polls, when a progress token is
present: the initial `10` sent before the loop, the in-loop values starting
from the stored counter `20`, and the terminal `100` sent when the result
is read from the channel. -/
def progressEmissions (n : Nat) : List Nat :=
  (10 :: loopEmits 20 n) ++ [100]

end ProgressLoop

section DependencyResolver

/-- A character matched by `\s` in Go's `regexp` package. -/
def wsChar (c : Char) : Bool :=
  c = ' ' ∨ c = '\t' ∨ c = '\n' ∨ c = '\r' ∨ c = '\u000B' ∨ c = '\u000C'

/-- Match of one line against `^#\s*requirements:\s*(.+)$` (the pattern of
`extractRequirementsFromPythonFiles` in run_project.go, applied per line
because of the `(?m)` flag): returns the captured group when the line
matches. -/
def lineReqSpec (line : String) : Option String :=
  match line.toList with
  | '#' :: rest =>
      let r1 := rest.dropWhile wsChar
      if listStarts "requirements:".toList r1 then
        let r2 := (r1.drop "requirements:".toList.length).dropWhile wsChar
        if r2.isEmpty then none else some (String.mk r2)
      else none
  | _ => none

/-- The specifiers contributed by one Python file's content, in textual
order and before cross-file de-duplication: each `# requirements:` match is
split on commas, the pieces trimmed, and empty pieces dropped
(run_project.go, loop body of `extractRequirementsFromPythonFiles`). -/
def fileReqs (content : String) : List String :=
  ((content.splitOn "\n").filterMap lineReqSpec).flatMap
    (fun m => ((m.splitOn ",").map trimSpace).filter (fun r => r ≠ ""))

/-- All specifiers found in the project's Python files (contents given in
`filepath.Walk` order), before de-duplication. -/
def allSpecs (files : List String) : List String := files.flatMap fileReqs

/-- `extractRequirementsFromPythonFiles` (run_project.go): the specifiers
of all `# requirements:` comments across the given Python file contents,
de-duplicated by exact string equality keeping first occurrences, in
discovery order.  Unreadable files are skipped by the source before this
point, so `files` are the contents that were successfully read. -/
def extractRequirementsFromPythonFiles (files : List String) : List String :=
  dedupFirst (allSpecs files)

/-- The key set (as a list in insertion order) of the `reqsMap` built by the
project-mode merge in `runProjectInDocker` (run_project.go): every trimmed
non-empty line of the existing `requirements.txt` is inserted first, then
every trimmed non-empty discovered specifier that is not already present. -/
def mergedReqKeys (existingLines discovered : List String) : List String :=
  let ex := (existingLines.map trimSpace).filter (fun r => r ≠ "")
  let ds := (discovered.map trimSpace).filter (fun r => r ≠ "")
  dedupFirst (ex ++ ds)

/-- The content written to `requirements.txt` by the merge, given the order
`order` in which Go's `for req := range reqsMap` happened to enumerate the
keys: `strings.Join(finalReqs, "\n")`. -/
def materializedManifest (order : List String) : String := njoin order

/-- The orders Go's map range may produce: any enumeration of the key set.
Go deliberately randomizes this order between runs. -/
def validRange (keys order : List String) : Prop := order.Perm keys

end DependencyResolver

section RuntimeProfiles

/-- Modelled from the spec: the per-language entry of the Runtime Profile
Table (`languages.SupportedLanguages`, a package not under the provided
sources) — base image reference, default run command, source file
extension, recognized dependency-manifest filenames, install command
template. -/
structure LanguageConfig where
  image : String
  runCommand : List String
  fileExtension : String
  dependencyFiles : List String
  installCommand : List String
deriving DecidableEq, Repr

/-- Modelled from the spec: lookup in the Runtime Profile Table.  The
supported language ids are `python`, `go`, `nodejs`; a missing id yields
the zero value of the struct ("zero value if unknown — caller must treat an
empty image reference as unsupported language").  The run/install command
values are representative; no theorem below depends on them except through
the struct fields themselves. -/
def SupportedLanguages (l : String) : LanguageConfig :=
  if l = "python" then
    { image := "python-sandbox-image"
      runCommand := ["python", "main.py"]
      fileExtension := "py"
      dependencyFiles := ["requirements.txt", "pyproject.toml", "setup.py"]
      installCommand := ["uv", "pip", "install", "--system"] }
  else if l = "go" then
    { image := "go-sandbox-image"
      runCommand := ["go", "run", "main.go"]
      fileExtension := "go"
      dependencyFiles := ["go.mod"]
      installCommand := ["go", "mod", "download"] }
  else if l = "nodejs" then
    { image := "nodejs-sandbox-image"
      runCommand := ["bun", "main.js"]
      fileExtension := "js"
      dependencyFiles := ["package.json"]
      installCommand := ["bun", "install"] }
  else
    { image := "", runCommand := [], fileExtension := ""
      dependencyFiles := [], installCommand := [] }

end RuntimeProfiles

section CommandComposition

/-- Command composition of `runInDocker` (run_code.go): when the language
is Python and packages were detected, prepend a `uv pip install` step and
run the whole line through a shell; otherwise the profile's run command is
used as-is. -/
def composeRunCodeCmd (language : String) (packages : List String) (cmd : List String) :
    List String :=
  if language = "python" ∧ packages ≠ [] then
    ["/bin/sh", "-c", "uv pip install --system " ++ sjoin packages ++ " && " ++ sjoin cmd]
  else cmd

/-- Command composition of `runProjectInDocker` (run_project.go): the
language/dep-file dispatch that fills `containerConfig.Cmd`.  In the
sub-cases where the Go code leaves `Cmd` unset (Python with an unrecognized
dep file; a language outside the switch) the result is `[]`, i.e. the
image's default command. -/
def composeProjectCmd (language : String) (hasDepFile : Bool) (depFile : String)
    (installCommand : List String) (cmd : List String) : List String :=
  if hasDepFile then
    if language = "python" then
      if depFile = "requirements.txt" then
        ["/bin/sh", "-c", "uv pip install --system -r " ++ depFile ++ " && " ++ sjoin cmd]
      else if depFile = "pyproject.toml" ∨ depFile = "setup.py" then
        ["/bin/sh", "-c", "uv pip install --system . && " ++ sjoin cmd]
      else []
    else if language = "go" then
      installCommand ++ cmd
    else if language = "nodejs" then
      "bun" :: cmd.tail
    else []
  else
    if language = "python" then
      ["/bin/sh", "-c", sjoin cmd]
    else cmd

/-- A command that is executed through a shell, in the shape the source
produces (`/bin/sh -c <line>`). -/
def isShellWrapped (c : List String) : Bool := c.head? = some "/bin/sh"

end CommandComposition

section ArtifactCollector

/-- The extensions classified as images by `guessMimeType`
(resources/container_artifacts.go). -/
def imageExts : List String := [".png", ".jpg", ".jpeg", ".gif", ".svg", ".webp"]

/-- The extensions classified as text by `guessMimeType`. -/
def textExts : List String := [".txt", ".md", ".json", ".yaml", ".yml", ".csv", ".tsv"]

/-- The extensions classified as audio by `guessMimeType`. -/
def audioExts : List String := [".mp3", ".wav", ".ogg", ".flac"]

/-- The extensions classified as video by `guessMimeType`. -/
def videoExts : List String := [".mp4", ".webm", ".avi", ".mov"]

/-- Every extension with a non-binary classification. -/
def knownMimeExts : List String :=
  imageExts ++ [".pdf"] ++ textExts ++ audioExts ++ videoExts

/-- The content category of a lower-cased extension (the switch body of
`guessMimeType` in resources/container_artifacts.go). -/
def mimeOfExt (e : String) : String :=
  if e ∈ imageExts then "image"
  else if e = ".pdf" then "pdf"
  else if e ∈ textExts then "text"
  else if e ∈ audioExts then "audio"
  else if e ∈ videoExts then "video"
  else "binary"

/-- `guessMimeType` (resources/container_artifacts.go): content category
from `strings.ToLower(filepath.Ext(filename))` alone. -/
def guessMimeType (filename : String) : String :=
  mimeOfExt (extOf filename).toLower

/-- A finite map with string keys, modelling both the process-wide
`artifactsRegistry` (`map[string]string`, key → durable path) and the host
filesystem as seen by the collector (path → file content). -/
def SMap : Type := String → Option String

/-- The empty map. -/
def semp : SMap := fun _ => none

/-- Map/filesystem update: `m[k] = v` / writing file `k` with content `v`. -/
def supd (m : SMap) (k v : String) : SMap :=
  fun x => if x = k then some v else m x

/-- One entry of the artifact-output directory listing (`os.ReadDir`):
name, content (of regular files), and whether it is a directory. -/
structure AEntry where
  name : String
  content : String
  isDir : Bool := false
deriving DecidableEq, Repr

/-- Oracle outcomes for the collector's filesystem operations: the error of
listing the artifact-output directory, and per-path errors for `MkdirAll`,
`ReadFile` and `WriteFile`. -/
structure FsW where
  listErr : Option String := none
  mkdirErr : String → Option String := fun _ => none
  readErr : String → Option String := fun _ => none
  writeErr : String → Option String := fun _ => none

/-- `filepath.Join(os.TempDir(), "persistent-code-sandbox-artifacts")`
(resources/container_artifacts.go), with `os.TempDir() = /tmp`. -/
def persistentArtifactsDir : String := "/tmp/persistent-code-sandbox-artifacts"

/-- The filesystem effect of one successfully read artifact file: the
durable copy written at `persistentPath`, plus — when a target directory
was supplied and its creation and the write both succeed — the extra copy
at `target/name` (`CollectArtifactsFromDir`, middle of the per-file
loop; target-side failures are only logged). -/
def collectStoreUpd (fsw : FsW) (target persistentPath : String) (e : AEntry)
    (store : SMap) : SMap :=
  if target ≠ "" then
    match fsw.mkdirErr target with
    | some _ => supd store persistentPath e.content
    | none =>
      match fsw.writeErr (target ++ "/" ++ e.name) with
      | some _ => supd store persistentPath e.content
      | none =>
        supd (supd store persistentPath e.content) (target ++ "/" ++ e.name) e.content
  else supd store persistentPath e.content

/-- The per-file phase of `CollectArtifactsFromDir`
(resources/container_artifacts.go): directories are skipped; a file whose
read or durable write fails is skipped with a warning; a successful durable
copy is optionally also written (best-effort) into `target`, then
registered under `containerID/name` and its `artifacts://` URI appended. -/
def collectLoop (fsw : FsW) (cid containerDir artifactsDir target : String)
    (reg store : SMap) : List AEntry → List String × SMap × SMap
  | [] => ([], reg, store)
  | e :: rest =>
    if e.isDir then collectLoop fsw cid containerDir artifactsDir target reg store rest
    else
      match fsw.readErr (artifactsDir ++ "/" ++ e.name) with
      | some _ => collectLoop fsw cid containerDir artifactsDir target reg store rest
      | none =>
        match fsw.writeErr (containerDir ++ "/" ++ e.name) with
        | some _ => collectLoop fsw cid containerDir artifactsDir target reg store rest
        | none =>
          (("artifacts://" ++ cid ++ "/" ++ e.name) ::
              (collectLoop fsw cid containerDir artifactsDir target
                (supd reg (cid ++ "/" ++ e.name) (containerDir ++ "/" ++ e.name))
                (collectStoreUpd fsw target (containerDir ++ "/" ++ e.name) e store)
                rest).1,
            (collectLoop fsw cid containerDir artifactsDir target
              (supd reg (cid ++ "/" ++ e.name) (containerDir ++ "/" ++ e.name))
              (collectStoreUpd fsw target (containerDir ++ "/" ++ e.name) e store)
              rest).2)

/-- `CollectArtifactsFromDir` (resources/container_artifacts.go): a failed
directory listing is fatal; an empty directory yields an empty result
before any write; otherwise the per-container durable directory is created
and each entry is processed by `collectLoop`. -/
def collectArtifactsFromDir (fsw : FsW) (cid artifactsDir target : String)
    (entries : List AEntry) (reg store : SMap) :
    Except String (List String) × SMap × SMap :=
  match fsw.listErr with
  | some e => (.error ("failed to read artifacts directory: " ++ e), reg, store)
  | none =>
    if entries.isEmpty then (.ok [], reg, store)
    else
      let containerDir := persistentArtifactsDir ++ "/" ++ cid
      match fsw.mkdirErr containerDir with
      | some e => (.error ("failed to create container directory: " ++ e), reg, store)
      | none =>
        let r := collectLoop fsw cid containerDir artifactsDir target reg store entries
        (.ok r.1, r.2.1, r.2.2)

/-- `GetContainerArtifact` (resources/container_artifacts.go): strip the
`artifacts://` scheme, look the key up in the registry, read the durable
copy, and return its bytes with the category inferred from the file name. -/
def getContainerArtifact (reg store : SMap) (uri : String) :
    Except String (String × String) :=
  let uriPath := trimPre "artifacts://" uri
  match reg uriPath with
  | none => .error ("artifact not found: " ++ uriPath)
  | some path =>
    match store path with
    | none => .error "failed to read artifact"
    | some data => .ok (data, guessMimeType (baseName path))

end ArtifactCollector

section RunCodeFlow

/-- The message `runInDocker` wraps around an image-pull failure. -/
def pullFailMsg (img e : String) : String :=
  "failed to pull Docker image " ++ img ++ ": " ++ e

/-- Outcome of `runInDocker` (run_code.go): the `(logs, artifacts, err)`
triple, or the `panic(err)` taken on a wait-channel error.  On an error
return the `logs` component is the string the Go code actually returns
(`""` on every failure before log capture, the captured logs on an
artifact-collection failure). -/
inductive RunResult where
  | ok (logs : String) (artifacts : List String)
  | fail (logs : String) (msg : String)
  | panicked (msg : String)
deriving DecidableEq, Repr

/-- True exactly on the typed-failure outcome (an `error` returned to the
caller), as opposed to success or a panic. -/
def isTypedFail : RunResult → Bool
  | .fail _ _ => true
  | _ => false

/-- Observable side effects of one `runInDocker` run. `tmpDirRemoved`
reflects the `defer os.RemoveAll(tmpDir)` (which also runs during panic
unwinding); `waitObserved` is true once a non-running status was read from
the wait channel. -/
structure RunEffects where
  pullAttempted : Bool := false
  tmpDirCreated : Bool := false
  tmpDirRemoved : Bool := false
  containerCreated : Bool := false
  containerStarted : Bool := false
  waitObserved : Bool := false
  logsFetched : Bool := false
deriving DecidableEq, Repr

/-- Oracle outcomes of the external operations performed by one
`runInDocker` run, in program order.  `logsErr` covers both the
`ContainerLogs` call and the `stdcopy.StdCopy` demultiplexing; `logsText`
is the combined stdout/stderr text obtained when both succeed. -/
structure CodeWorld where
  clientErr : Option String := none
  pullErr : Option String := none
  mkdirTempErr : Option String := none
  mkdirArtifactsErr : Option String := none
  writeCodeErr : Option String := none
  writeReqsErr : Option String := none
  createErr : Option String := none
  startErr : Option String := none
  waitErr : Option String := none
  logsErr : Option String := none
  logsText : String := ""
  tmpDir : String := "/tmp/docker-sandbox-1"
  containerId : String := "c1"
  fsw : FsW := {}
  artifactEntries : List AEntry := []
  outputDirErr : Option String := none

/-- `runInDocker` (run_code.go) over a `CodeWorld`.  `packages` stands for
the result of `languages.Parse*Imports(code)` (a scanner that is not under
the provided sources); everything after that point follows the source:
client creation, image pull, temp-dir staging, code/requirements writes,
command composition, container create/start, wait (where an error channel
value is a panic), log capture, and artifact collection.  The post-collect
"DIRECT COPY" debugging block, which only duplicates artifact bytes into
`outputPath` best-effort, is not modelled.  The collector's
registry/filesystem are threaded through as `reg`/`store`. -/
def runInDockerM (w : CodeWorld) (cmd : List String) (dockerImage : String)
    (code : String) (language : String) (packages : List String)
    (outputPath : String) (reg store : SMap) :
    RunResult × RunEffects × SMap × SMap :=
  match w.clientErr with
  | some e => (.fail "" ("failed to create Docker client: " ++ e), {}, reg, store)
  | none =>
  match w.pullErr with
  | some e => (.fail "" (pullFailMsg dockerImage e), { pullAttempted := true }, reg, store)
  | none =>
  match w.mkdirTempErr with
  | some e =>
      (.fail "" ("failed to create temporary directory: " ++ e),
        { pullAttempted := true }, reg, store)
  | none =>
  match w.mkdirArtifactsErr with
  | some e =>
      (.fail "" ("failed to create artifacts directory: " ++ e),
        { pullAttempted := true, tmpDirCreated := true, tmpDirRemoved := true }, reg, store)
  | none =>
  match w.writeCodeErr with
  | some e =>
      (.fail "" ("failed to write code to temporary file: " ++ e),
        { pullAttempted := true, tmpDirCreated := true, tmpDirRemoved := true }, reg, store)
  | none =>
  match (if language = "python" ∧ packages ≠ [] then w.writeReqsErr else none) with
  | some e =>
      (.fail "" ("failed to write requirements file: " ++ e),
        { pullAttempted := true, tmpDirCreated := true, tmpDirRemoved := true }, reg, store)
  | none =>
  let _finalCmd := composeRunCodeCmd language packages cmd
  match w.createErr with
  | some e =>
      (.fail "" ("failed to create container: " ++ e),
        { pullAttempted := true, tmpDirCreated := true, tmpDirRemoved := true }, reg, store)
  | none =>
  match w.startErr with
  | some e =>
      (.fail "" ("failed to start container: " ++ e),
        { pullAttempted := true, tmpDirCreated := true, tmpDirRemoved := true,
          containerCreated := true }, reg, store)
  | none =>
  match w.waitErr with
  | some e =>
      (.panicked e,
        { pullAttempted := true, tmpDirCreated := true, tmpDirRemoved := true,
          containerCreated := true, containerStarted := true }, reg, store)
  | none =>
  match w.logsErr with
  | some e =>
      (.fail "" ("failed to get container logs: " ++ e),
        { pullAttempted := true, tmpDirCreated := true, tmpDirRemoved := true,
          containerCreated := true, containerStarted := true, waitObserved := true },
        reg, store)
  | none =>
  let doneEffects : RunEffects :=
    { pullAttempted := true, tmpDirCreated := true, tmpDirRemoved := true,
      containerCreated := true, containerStarted := true, waitObserved := true,
      logsFetched := true }
  let c := collectArtifactsFromDir w.fsw w.containerId (w.tmpDir ++ "/artifacts")
    outputPath w.artifactEntries reg store
  let res : RunResult :=
    match c.1 with
    | .error m => .fail w.logsText ("failed to collect artifacts: " ++ m)
    | .ok uris => .ok w.logsText uris
  (res, doneEffects, c.2.1, c.2.2)

/-- The result `RunCodeSandbox` hands back to the MCP client, or the
process crash caused by the goroutine's unrecovered panic. -/
inductive ToolResult where
  | errText (s : String)
  | okText (s : String)
  | crashed (msg : String)
deriving DecidableEq, Repr

/-- `RunCodeSandbox` (run_code.go) over a `CodeWorld`: argument
type-checks (`none` models a JSON value that is not a string), optional
output-directory validation, profile lookup, and the translation of the
goroutine's `runInDocker` outcome into the tool result.  On an error
outcome the reply is `"Error: " ++ msg` and the logs component of the
result is discarded. -/
def runCodeSandboxM (w : CodeWorld) (langArg codeArg : Option String)
    (outputPath : String) (packages : List String) (reg store : SMap) :
    ToolResult × RunEffects × SMap × SMap :=
  match langArg with
  | none => (.errText "Language not supported: (non-string value)", {}, reg, store)
  | some language =>
  match codeArg with
  | none => (.errText "language must be a string", {}, reg, store)
  | some code =>
  match (if outputPath ≠ "" then w.outputDirErr else none) with
  | some e => (.errText ("Failed to create output directory: " ++ e), {}, reg, store)
  | none =>
  let config := SupportedLanguages language
  let r := runInDockerM w config.runCommand config.image code language packages
    outputPath reg store
  match r.1 with
  | .fail _ msg => (.errText ("Error: " ++ msg), r.2.1, r.2.2.1, r.2.2.2)
  | .panicked m => (.crashed m, r.2.1, r.2.2.1, r.2.2.2)
  | .ok logs arts =>
      (.okText (if arts ≠ [] then
          "Logs: " ++ logs ++ "\n\nArtifacts: " ++ String.intercalate ", " arts
        else "Logs: " ++ logs), r.2.1, r.2.2.1, r.2.2.2)

end RunCodeFlow

section RunProjectFlow

/-- Outcome of `runProjectInDocker` (run_project.go). -/
inductive ProjResult where
  | ok (cid : String) (artifacts : List String)
  | fail (msg : String)
deriving DecidableEq, Repr

/-- Observable side effects of one `runProjectInDocker` run.
`projArtifactsDirRemoved` stays `false` on every path because no code path
removes the `artifacts` subdirectory created inside the project directory;
`tempArtifactsRemoved` reflects the three explicit `os.RemoveAll` calls
(there is no `defer` for this directory). -/
structure ProjEffects where
  pullAttempted : Bool := false
  reqsFileWritten : Bool := false
  tempArtifactsCreated : Bool := false
  tempArtifactsRemoved : Bool := false
  projArtifactsDirCreated : Bool := false
  projArtifactsDirRemoved : Bool := false
  containerCreated : Bool := false
  containerStarted : Bool := false
deriving DecidableEq, Repr

/-- Oracle outcomes of the external operations performed by one
`runProjectInDocker` run.  `presentDepFiles` are the manifest names whose
`os.Stat` in the project root succeeds; `pyFiles` are the contents of the
tree's `.py` files in `filepath.Walk` order; `walkErr` is a fatal walk
error of the comment scan (only warned about by the caller);
`writeMergedErr` is the error of writing the merged `requirements.txt`
(also only warned about). -/
structure ProjWorld where
  clientErr : Option String := none
  progressErr : Option String := none
  pullErr : Option String := none
  presentDepFiles : List String := []
  pyFiles : List String := []
  walkErr : Option String := none
  writeMergedErr : Option String := none
  mkdirTempErr : Option String := none
  mkdirProjArtErr : Option String := none
  createErr : Option String := none
  startErr : Option String := none
  containerId : String := "c1"
  tempArtifactsDir : String := "/tmp/project-artifacts-1"
  fsw : FsW := {}
  artifactEntries : List AEntry := []

/-- The dependency-file search of `runProjectInDocker`: the first name of
the profile's `DependencyFiles` that exists in the project root. -/
def findDepFile (depFiles presentDepFiles : List String) : Option String :=
  depFiles.find? (fun f => f ∈ presentDepFiles)

/-- The Python comment-scan-and-merge step of `runProjectInDocker`
(run_project.go): entered when the language is Python and the dep-file
search did not find `requirements.txt`; a scan error or an empty result or
a failed write leaves the dep-file state unchanged, a successful write of
the merged manifest makes `requirements.txt` the dependency file.  The
written content is some `validRange` enumeration of `mergedReqKeys` and is
deliberately not a function of the inputs (see the C7 theorems); only the
control-flow outcome is returned here. -/
def pythonScanStep (w : ProjWorld) (language : String) (depFile0 : Option String) :
    Option String × Bool :=
  if language = "python" ∧ depFile0 ≠ some "requirements.txt" then
    match w.walkErr with
    | some _ => (depFile0, false)
    | none =>
      if extractRequirementsFromPythonFiles w.pyFiles = [] then (depFile0, false)
      else
        match w.writeMergedErr with
        | some _ => (depFile0, false)
        | none => (some "requirements.txt", true)
  else (depFile0, false)

/-- `runProjectInDocker` (run_project.go) over a `ProjWorld`: client and
first progress notification (whose failure is fatal there), image pull,
dependency-file resolution including the Python comment-scan merge,
temp/in-project artifact directory staging, command composition, container
create/start (each failure removing the temp artifacts directory first),
and artifact collection targeting the in-project `artifacts` directory.
The best-effort `ARTIFACTS_DIR` environment block (logging and `MkdirAll`
only) and the later progress notifications (errors ignored) do not affect
the outcome and are not modelled. -/
def runProjectInDockerM (w : ProjWorld) (cmd : List String) (dockerImage : String)
    (projectDir : String) (language : String) (reg store : SMap) :
    ProjResult × ProjEffects × SMap × SMap :=
  match w.clientErr with
  | some e => (.fail ("failed to create Docker client: " ++ e), {}, reg, store)
  | none =>
  match w.progressErr with
  | some e => (.fail ("failed to send progress notification: " ++ e), {}, reg, store)
  | none =>
  match w.pullErr with
  | some e => (.fail (pullFailMsg dockerImage e), { pullAttempted := true }, reg, store)
  | none =>
  let depFile0 := findDepFile (SupportedLanguages language).dependencyFiles w.presentDepFiles
  let scan := pythonScanStep w language depFile0
  let hasDepFile := scan.1.isSome
  let depFile := scan.1.getD ""
  let _cmdFinal := composeProjectCmd language hasDepFile depFile
    (SupportedLanguages language).installCommand cmd
  match w.mkdirTempErr with
  | some e =>
      (.fail ("failed to create temporary artifacts directory: " ++ e),
        { pullAttempted := true, reqsFileWritten := scan.2 }, reg, store)
  | none =>
  match w.mkdirProjArtErr with
  | some e =>
      (.fail ("failed to create project artifacts directory: " ++ e),
        { pullAttempted := true, reqsFileWritten := scan.2,
          tempArtifactsCreated := true, tempArtifactsRemoved := true }, reg, store)
  | none =>
  match w.createErr with
  | some e =>
      (.fail ("failed to create container: " ++ e),
        { pullAttempted := true, reqsFileWritten := scan.2,
          tempArtifactsCreated := true, tempArtifactsRemoved := true,
          projArtifactsDirCreated := true }, reg, store)
  | none =>
  match w.startErr with
  | some e =>
      (.fail ("failed to start container: " ++ e),
        { pullAttempted := true, reqsFileWritten := scan.2,
          tempArtifactsCreated := true, tempArtifactsRemoved := true,
          projArtifactsDirCreated := true, containerCreated := true }, reg, store)
  | none =>
  let doneEffects : ProjEffects :=
    { pullAttempted := true, reqsFileWritten := scan.2,
      tempArtifactsCreated := true, tempArtifactsRemoved := false,
      projArtifactsDirCreated := true, containerCreated := true,
      containerStarted := true }
  let c := collectArtifactsFromDir w.fsw w.containerId w.tempArtifactsDir
    (projectDir ++ "/artifacts") w.artifactEntries reg store
  let res : ProjResult :=
    match c.1 with
    | .error m => .fail ("failed to collect artifacts: " ++ m)
    | .ok uris => .ok w.containerId uris
  (res, doneEffects, c.2.1, c.2.2)

end RunProjectFlow

section ClaimPredicates

/-- Boolean test that a list of progress values is non-decreasing. -/
def nondecreasing : List Nat → Bool
  | [] => true
  | [_] => true
  | a :: b :: t => a ≤ b && nondecreasing (b :: t)

end ClaimPredicates

/-- C1: the claim as stated is false.  When the result arrives only after
25 polls, the in-loop counter reaches the terminal value 100 on the 24th
poll (99 + 1) and then leaves the single-increment window, so the 25th poll
emits 105: the emission sequence `[10, 25, …, 99, 100, 105, 100]` is not
non-decreasing, and the terminal value 100 is emitted twice, with 105
emitted after the first 100 — refuting monotonicity and the
nothing-after-terminal property at this concrete input. -/
theorem C1_counterexample :
    nondecreasing (progressEmissions 25) = false ∧
    (progressEmissions 25).count 100 = 2 ∧
    (progressEmissions 25).getLast? = some 100 := by
  refine ⟨by decide, by decide, ?_⟩
  exact List.getLast?_concat _

/-- C1 (amended): the final emitted progress value is always the terminal
value 100; and provided the result arrives within 23 polls (i.e. before
the in-loop counter first reaches 100), the emission sequence is
non-decreasing and the terminal value is emitted exactly once, as the last
value.  For longer runs the in-loop counter reaches 100 and then grows past
it in steps of 5, so the final terminal emission breaks monotonicity. -/
theorem C1_progress_monotone_upto_terminal (n : Nat) (h : n ≤ 23) :
    (progressEmissions n).getLast? = some 100 ∧
    (nondecreasing (progressEmissions n) = true ∧
      (progressEmissions n).count 100 = 1) := by
  refine ⟨List.getLast?_concat _, ?_⟩
  have hb : ∀ m ∈ List.range 24,
      nondecreasing (progressEmissions m) = true ∧
        (progressEmissions m).count 100 = 1 := by decide
  exact hb n (List.mem_range.mpr (Nat.lt_succ_of_le h))

/-- C1 witness: the amended theorem applied to a run whose result arrives
after 3 polls. -/
theorem C1_witness :
    (progressEmissions 3).getLast? = some 100 ∧
    (nondecreasing (progressEmissions 3) = true ∧
      (progressEmissions 3).count 100 = 1) :=
  C1_progress_monotone_upto_terminal 3 (by decide)

/-- C2: the claim as stated is false.  When the wait channel reports an
internal error after the container is started, `runInDocker` executes
`panic(err)` (run_code.go): the outcome is a panic of the unrecovered
goroutine, not a typed failure returned to the caller, and logs are never
fetched. -/
theorem C2_counterexample :
    (runInDockerM { waitErr := some "wait: connection reset" } ["python", "main.py"]
        "img" "print(1)" "python" [] "" semp semp).1 =
      .panicked "wait: connection reset" ∧
    isTypedFail (runInDockerM { waitErr := some "wait: connection reset" }
        ["python", "main.py"] "img" "print(1)" "python" [] "" semp semp).1 = false ∧
    (runInDockerM { waitErr := some "wait: connection reset" } ["python", "main.py"]
        "img" "print(1)" "python" [] "" semp semp).2.1.logsFetched = false := by
  refine ⟨rfl, rfl, rfl⟩

/-- C2 (amended): a wait-channel internal error is indeed treated as
unrecoverable and is not retried, but it aborts the run by panicking
(crashing the unrecovered goroutine) instead of being propagated as a typed
failure; logs are not fetched on that path.  The second conjunct confirms
the rest of the claim: on every path of `runInDocker`, logs are fetched
only after the non-running state has been observed on the wait channel. -/
theorem C2_wait_error_panics :
    (∀ (w : CodeWorld) (cmd : List String) (img code lang : String)
        (pkgs : List String) (out : String) (reg store : SMap) (e : String),
      w.clientErr = none → w.pullErr = none → w.mkdirTempErr = none →
      w.mkdirArtifactsErr = none → w.writeCodeErr = none → w.writeReqsErr = none →
      w.createErr = none → w.startErr = none → w.waitErr = some e →
      (runInDockerM w cmd img code lang pkgs out reg store).1 = .panicked e ∧
      isTypedFail (runInDockerM w cmd img code lang pkgs out reg store).1 = false ∧
      (runInDockerM w cmd img code lang pkgs out reg store).2.1.logsFetched = false) ∧
    (∀ (w : CodeWorld) (cmd : List String) (img code lang : String)
        (pkgs : List String) (out : String) (reg store : SMap),
      (runInDockerM w cmd img code lang pkgs out reg store).2.1.logsFetched = true →
      (runInDockerM w cmd img code lang pkgs out reg store).2.1.waitObserved = true) := by
  constructor
  · intro w cmd img code lang pkgs out reg store e h1 h2 h3 h4 h5 h6 h7 h8 hw
    simp [runInDockerM, h1, h2, h3, h4, h5, h6, h7, h8, hw, isTypedFail]
  · intro w cmd img code lang pkgs out reg store
    unfold runInDockerM
    repeat' split
    all_goals intros
    all_goals first | rfl | simp_all

/-- C2 witness: the amended theorem applied to a concrete world whose wait
channel yields an internal error, with every prior step succeeding. -/
theorem C2_witness :
    (runInDockerM { waitErr := some "backend fault" } ["go", "run", "main.go"]
        "golang-img" "package main" "go" [] "" semp semp).1 =
      .panicked "backend fault" ∧
    isTypedFail (runInDockerM { waitErr := some "backend fault" }
        ["go", "run", "main.go"] "golang-img" "package main" "go" [] "" semp semp).1 =
      false ∧
    (runInDockerM { waitErr := some "backend fault" } ["go", "run", "main.go"]
        "golang-img" "package main" "go" [] "" semp semp).2.1.logsFetched = false :=
  C2_wait_error_panics.1 { waitErr := some "backend fault" } ["go", "run", "main.go"]
    "golang-img" "package main" "go" [] "" semp semp "backend fault"
    rfl rfl rfl rfl rfl rfl rfl rfl rfl

/-- C3: the claim as stated is false.  In project mode with no dependency
file, a Go entrypoint is used as the container command completely
unmodified — it is not executed through a shell — refuting "still
shell-wrapped" for every supported language with an empty `DependencySet`
(run_project.go, the `default` branch of the no-dependency switch). -/
theorem C3_counterexample :
    composeProjectCmd "go" false "" ["go", "mod", "download"] ["go", "run", "."] =
      ["go", "run", "."] ∧
    isShellWrapped ["go", "run", "."] = false := by
  exact ⟨by decide, by decide⟩

/-- C3 (amended): the actual command composition.  Inline-code mode: with
no detected packages the run command is used unmodified (not shell-wrapped
by this step); for Python with detected packages the command is
`install && run` through a shell.  Project mode with no dependency file:
Python shell-wraps the bare run step, every other language uses the run
step unmodified without a shell.  Project mode with a dependency file:
Python composes `install && run` through a shell for `requirements.txt`;
Go prepends its install command as a plain argv (no shell, no `&&`);
NodeJS replaces the entrypoint head with `bun` and has no install step. -/
theorem C3_command_composition :
    (∀ (lang : String) (cmd : List String), composeRunCodeCmd lang [] cmd = cmd) ∧
    (∀ (pkgs cmd : List String), pkgs ≠ [] →
      composeRunCodeCmd "python" pkgs cmd =
        ["/bin/sh", "-c",
          "uv pip install --system " ++ sjoin pkgs ++ " && " ++ sjoin cmd]) ∧
    (∀ (df : String) (ic cmd : List String),
      composeProjectCmd "python" false df ic cmd = ["/bin/sh", "-c", sjoin cmd]) ∧
    (∀ (lang df : String) (ic cmd : List String), lang ≠ "python" →
      composeProjectCmd lang false df ic cmd = cmd) ∧
    (∀ (ic cmd : List String),
      composeProjectCmd "python" true "requirements.txt" ic cmd =
        ["/bin/sh", "-c",
          "uv pip install --system -r requirements.txt && " ++ sjoin cmd]) ∧
    (∀ (df : String) (ic cmd : List String),
      composeProjectCmd "go" true df ic cmd = ic ++ cmd) ∧
    (∀ (df : String) (ic cmd : List String),
      composeProjectCmd "nodejs" true df ic cmd = "bun" :: cmd.tail) := by
  refine ⟨?_, ?_, ?_, ?_, ?_, ?_, ?_⟩
  · intro lang cmd; simp [composeRunCodeCmd]
  · intro pkgs cmd h; simp [composeRunCodeCmd, h]
  · intro df ic cmd; simp [composeProjectCmd]
  · intro lang df ic cmd h; simp [composeProjectCmd, h]
  · intro ic cmd; simp [composeProjectCmd]
  · intro df ic cmd; simp [composeProjectCmd]
  · intro df ic cmd; simp [composeProjectCmd]

/-- C3 witness: the amended theorem's hypotheses discharged at concrete
inputs — Python inline code with one detected package, and a NodeJS
project with no dependency file. -/
theorem C3_witness :
    composeRunCodeCmd "python" ["numpy"] ["python", "main.py"] =
      ["/bin/sh", "-c",
        "uv pip install --system " ++ sjoin ["numpy"] ++ " && " ++
          sjoin ["python", "main.py"]] ∧
    composeProjectCmd "nodejs" false "" [] ["node", "index.js"] =
      ["node", "index.js"] :=
  ⟨C3_command_composition.2.1 ["numpy"] ["python", "main.py"] (by decide),
    C3_command_composition.2.2.2.1 "nodejs" "" [] ["node", "index.js"] (by decide)⟩

/-- C4: the claim as stated is false.  A fully successful `run_project`
execution ends with the ephemeral host staging directory (the
`project-artifacts-*` temp directory) still present: `runProjectInDocker`
has no `defer os.RemoveAll` and removes it only on its three early failure
paths, so on success the run ends without removing it. -/
theorem C4_counterexample :
    (runProjectInDockerM {} ["python", "main.py"] "img" "/home/u/proj"
        "python" semp semp).2.1.tempArtifactsCreated = true ∧
    (runProjectInDockerM {} ["python", "main.py"] "img" "/home/u/proj"
        "python" semp semp).2.1.tempArtifactsRemoved = false ∧
    (runProjectInDockerM {} ["python", "main.py"] "img" "/home/u/proj"
        "python" semp semp).1 = .ok "c1" [] := by
  exact ⟨rfl, rfl, rfl⟩

/-- C4 (amended): in inline-code mode the staging directory is always
removed by the end of the run, success or failure (deferred removal, which
also runs during panic unwinding); and in project mode failures at
container create or start do remove the temp staging directory before the
error propagates.  However, a successful project run — and a project run
whose artifact collection fails — ends without removing it. -/
theorem C4_workspace_cleanup :
    (∀ (w : CodeWorld) (cmd : List String) (img code lang : String)
        (pkgs : List String) (out : String) (reg store : SMap),
      (runInDockerM w cmd img code lang pkgs out reg store).2.1.tmpDirRemoved =
        (runInDockerM w cmd img code lang pkgs out reg store).2.1.tmpDirCreated) ∧
    (∀ (pw : ProjWorld) (cmd : List String) (img pd lang : String)
        (reg store : SMap) (e : String),
      pw.clientErr = none → pw.progressErr = none → pw.pullErr = none →
      pw.mkdirTempErr = none → pw.mkdirProjArtErr = none → pw.createErr = some e →
      (runProjectInDockerM pw cmd img pd lang reg store).2.1.tempArtifactsRemoved =
          true ∧
      (runProjectInDockerM pw cmd img pd lang reg store).1 =
        .fail ("failed to create container: " ++ e)) ∧
    (∀ (pw : ProjWorld) (cmd : List String) (img pd lang : String)
        (reg store : SMap) (e : String),
      pw.clientErr = none → pw.progressErr = none → pw.pullErr = none →
      pw.mkdirTempErr = none → pw.mkdirProjArtErr = none → pw.createErr = none →
      pw.startErr = some e →
      (runProjectInDockerM pw cmd img pd lang reg store).2.1.tempArtifactsRemoved =
          true ∧
      (runProjectInDockerM pw cmd img pd lang reg store).1 =
        .fail ("failed to start container: " ++ e)) := by
  refine ⟨?_, ?_, ?_⟩
  · intro w cmd img code lang pkgs out reg store
    unfold runInDockerM
    repeat' split
    all_goals rfl
  · intro pw cmd img pd lang reg store e h1 h2 h3 h4 h5 h6
    simp [runProjectInDockerM, h1, h2, h3, h4, h5, h6]
  · intro pw cmd img pd lang reg store e h1 h2 h3 h4 h5 h6 h7
    simp [runProjectInDockerM, h1, h2, h3, h4, h5, h6, h7]

/-- C4 witness: the amended theorem's project-mode conjuncts discharged at
concrete worlds whose container create (resp. start) fails. -/
theorem C4_witness :
    ((runProjectInDockerM { createErr := some "quota" } ["python", "main.py"] "img"
        "/p" "python" semp semp).2.1.tempArtifactsRemoved = true ∧
     (runProjectInDockerM { createErr := some "quota" } ["python", "main.py"] "img"
        "/p" "python" semp semp).1 =
       .fail ("failed to create container: " ++ "quota")) ∧
    ((runProjectInDockerM { startErr := some "oom" } ["python", "main.py"] "img"
        "/p" "python" semp semp).2.1.tempArtifactsRemoved = true ∧
     (runProjectInDockerM { startErr := some "oom" } ["python", "main.py"] "img"
        "/p" "python" semp semp).1 =
       .fail ("failed to start container: " ++ "oom")) :=
  ⟨C4_workspace_cleanup.2.1 { createErr := some "quota" } ["python", "main.py"] "img"
      "/p" "python" semp semp "quota" rfl rfl rfl rfl rfl rfl,
    C4_workspace_cleanup.2.2 { startErr := some "oom" } ["python", "main.py"] "img"
      "/p" "python" semp semp "oom" rfl rfl rfl rfl rfl rfl rfl⟩

/-- C5: the claim as stated is false.  In a run whose container execution
succeeds with logs `"zzz"` and whose artifact collection then fails, the
tool reply handed to the caller is only the formatted error — a string
that does not even contain the character `z` — so the already-collected
logs are lost at the tool boundary (`RunCodeSandbox`'s error branch
formats `result.err` and discards `result.logs`). -/
theorem C5_counterexample :
    (runCodeSandboxM { logsText := "zzz", fsw := { listErr := some "boom" } }
        (some "python") (some "x") "" [] semp semp).1 =
      .errText "Error: failed to collect artifacts: failed to read artifacts directory: boom" ∧
    ("zzz".toList.contains 'z') = true ∧
    ("Error: failed to collect artifacts: failed to read artifacts directory: boom".toList.contains
        'z') = false := by
  exact ⟨by decide, by decide, by decide⟩

/-- C5 (amended): when container execution completes and artifact
collection then fails, `runInDocker` does return the captured logs to its
caller alongside the typed harvesting failure; but `RunCodeSandbox`'s
reply to the MCP client consists of the formatted error message alone, so
the logs are dropped at the tool boundary. -/
theorem C5_logs_with_harvest_failure (w : CodeWorld) (cmd : List String)
    (img code lang : String) (pkgs : List String) (out : String)
    (reg store : SMap) (m : String)
    (h1 : w.clientErr = none) (h2 : w.pullErr = none) (h3 : w.mkdirTempErr = none)
    (h4 : w.mkdirArtifactsErr = none) (h5 : w.writeCodeErr = none)
    (h6 : w.writeReqsErr = none) (h7 : w.createErr = none) (h8 : w.startErr = none)
    (h9 : w.waitErr = none) (h10 : w.logsErr = none)
    (h11 : w.fsw.listErr = some m) :
    (runInDockerM w cmd img code lang pkgs out reg store).1 =
      .fail w.logsText
        ("failed to collect artifacts: " ++
          ("failed to read artifacts directory: " ++ m)) ∧
    (runCodeSandboxM w (some lang) (some code) "" pkgs reg store).1 =
      .errText ("Error: " ++
        ("failed to collect artifacts: " ++
          ("failed to read artifacts directory: " ++ m))) := by
  constructor
  · simp [runInDockerM, collectArtifactsFromDir, h1, h2, h3, h4, h5, h6, h7, h8, h9,
      h10, h11]
  · simp [runCodeSandboxM, runInDockerM, collectArtifactsFromDir, h1, h2, h3, h4, h5,
      h6, h7, h8, h9, h10, h11]

/-- C5 witness: the amended theorem applied to a concrete world with
captured logs `"hello logs"` and a failing artifact-directory listing. -/
theorem C5_witness :
    (runInDockerM { logsText := "hello logs", fsw := { listErr := some "io" } }
        ["python", "main.py"] "img" "x" "python" [] "" semp semp).1 =
      .fail "hello logs"
        ("failed to collect artifacts: " ++
          ("failed to read artifacts directory: " ++ "io")) ∧
    (runCodeSandboxM { logsText := "hello logs", fsw := { listErr := some "io" } }
        (some "python") (some "x") "" [] semp semp).1 =
      .errText ("Error: " ++
        ("failed to collect artifacts: " ++
          ("failed to read artifacts directory: " ++ "io"))) :=
  C5_logs_with_harvest_failure
    { logsText := "hello logs", fsw := { listErr := some "io" } }
    ["python", "main.py"] "img" "x" "python" [] "" semp semp "io"
    rfl rfl rfl rfl rfl rfl rfl rfl rfl rfl rfl

/-- C6: confirmed.  During the project-mode merge, every trimmed non-empty
entry of the existing manifest is a key of the merged requirement set:
existing entries are inserted first and `insertKey` never removes or
replaces a present key, so a specifier discovered in a comment (a
different exact string, e.g. `pkgA` next to `pkgA==1.0`) can only be
appended, never overwrite the existing entry. -/
theorem C6_existing_entries_preserved (existing discovered : List String) (e : String)
    (he : e ∈ existing) (hne : trimSpace e ≠ "") :
    trimSpace e ∈ mergedReqKeys existing discovered := by
  unfold mergedReqKeys dedupFirst
  rw [mem_foldl_insertKey]
  refine Or.inr (List.mem_append.mpr (Or.inl ?_))
  refine List.mem_filter.mpr ⟨List.mem_map_of_mem _ he, by simpa using hne⟩

/-- C6 witness: the theorem applied to the spec's own example — an
existing entry `pkgA==1.0` and a discovered comment specifier `pkgA`. -/
theorem C6_witness :
    trimSpace "pkgA==1.0" ∈ mergedReqKeys ["pkgA==1.0"] ["pkgA"] :=
  C6_existing_entries_preserved ["pkgA==1.0"] ["pkgA"] "pkgA==1.0"
    (by decide) (by decide)

/-- C7: the claim as stated is false.  The materialized manifest is written
by iterating a Go map (`for req := range reqsMap`), whose enumeration
order is unspecified and deliberately randomized: for the same merged key
set `["a", "b"]`, both `["a", "b"]` and `["b", "a"]` are orders the range
loop may produce, and they materialize different manifests — so the
manifest is not a function of the source and is not governed by insertion
order. -/
theorem C7_counterexample :
    validRange (mergedReqKeys [] ["a", "b"]) ["a", "b"] ∧
    validRange (mergedReqKeys [] ["a", "b"]) ["b", "a"] ∧
    materializedManifest ["a", "b"] ≠ materializedManifest ["b", "a"] := by
  refine ⟨?_, ?_, by decide⟩
  · unfold validRange; decide
  · unfold validRange; decide

/-- C7 (amended): the scanning half of the resolver is deterministic and
de-duplicating — `extractRequirementsFromPythonFiles` is a pure function of
the file contents in walk order whose result has no duplicates and contains
exactly the specifiers appearing in `# requirements:` comments; but the
line order of the materialized project-mode manifest is only determined up
to permutation of the merged key set (see the counterexample), because the
write iterates a Go map. -/
theorem C7_extraction_deterministic (files : List String) :
    (extractRequirementsFromPythonFiles files).Nodup ∧
    ∀ r, r ∈ extractRequirementsFromPythonFiles files ↔ r ∈ allSpecs files := by
  constructor
  · exact foldl_insertKey_nodup _ _ List.nodup_nil
  · intro r
    unfold extractRequirementsFromPythonFiles dedupFirst
    rw [mem_foldl_insertKey]
    simp

/-- C9: the claim as stated is false.  A request naming the unknown
language id `cobol` (a string, so it passes the only validation
`RunCodeSandbox` performs) is not rejected with a configuration error: the
run proceeds into provisioning with the zero profile's empty image
reference and fails at the image pull, producing a provisioning failure
message — though indeed no container is ever created. -/
theorem C9_counterexample :
    (runCodeSandboxM { pullErr := some "repository does not exist" } (some "cobol")
        (some "print(1)") "" [] semp semp).1 =
      .errText "Error: failed to pull Docker image : repository does not exist" ∧
    (runCodeSandboxM { pullErr := some "repository does not exist" } (some "cobol")
        (some "print(1)") "" [] semp semp).2.1.pullAttempted = true ∧
    (runCodeSandboxM { pullErr := some "repository does not exist" } (some "cobol")
        (some "print(1)") "" [] semp semp).2.1.containerCreated = false := by
  exact ⟨by decide, rfl, rfl⟩

/-- C9 (amended): for every unknown language id the profile lookup yields
the zero profile, whose image reference is empty; the run is not rejected
by request validation but proceeds to the image pull, which fails on the
empty reference (the docker daemon rejects it), and the typed failure
returned is the wrapped pull error; no container is ever created. -/
theorem C9_unknown_language (lang : String) (w : CodeWorld) (codeArg : String)
    (pkgs : List String) (reg store : SMap) (e : String)
    (hl1 : lang ≠ "python") (hl2 : lang ≠ "go") (hl3 : lang ≠ "nodejs")
    (hc : w.clientErr = none) (hp : w.pullErr = some e) :
    (SupportedLanguages lang).image = "" ∧
    (runCodeSandboxM w (some lang) (some codeArg) "" pkgs reg store).1 =
      .errText ("Error: " ++ pullFailMsg "" e) ∧
    (runCodeSandboxM w (some lang) (some codeArg) "" pkgs reg store).2.1.pullAttempted =
      true ∧
    (runCodeSandboxM w (some lang) (some codeArg) "" pkgs reg store).2.1.containerCreated =
      false := by
  have himg : SupportedLanguages lang =
      { image := "", runCommand := [], fileExtension := ""
        dependencyFiles := [], installCommand := [] } := by
    simp [SupportedLanguages, hl1, hl2, hl3]
  refine ⟨by rw [himg], ?_, ?_, ?_⟩ <;>
    simp [runCodeSandboxM, runInDockerM, himg, hc, hp]

/-- C9 witness: the amended theorem applied to the unknown language id
`cobol` and a world whose image pull fails. -/
theorem C9_witness :
    (SupportedLanguages "cobol").image = "" ∧
    (runCodeSandboxM { pullErr := some "invalid reference format" } (some "cobol")
        (some "x") "" [] semp semp).1 =
      .errText ("Error: " ++ pullFailMsg "" "invalid reference format") ∧
    (runCodeSandboxM { pullErr := some "invalid reference format" } (some "cobol")
        (some "x") "" [] semp semp).2.1.pullAttempted = true ∧
    (runCodeSandboxM { pullErr := some "invalid reference format" } (some "cobol")
        (some "x") "" [] semp semp).2.1.containerCreated = false :=
  C9_unknown_language "cobol" { pullErr := some "invalid reference format" } "x" []
    semp semp "invalid reference format" (by decide) (by decide) (by decide) rfl rfl

section PathLemmas

theorem listStarts_self_append (l r : List Char) : listStarts l (l ++ r) = true := by
  induction l with
  | nil => rfl
  | cons a t ih => simp [listStarts, ih]

theorem strData_append (a b : String) : (a ++ b).data = a.data ++ b.data := rfl

theorem listCancelLeft : ∀ (a b c : List Char), a ++ b = a ++ c → b = c := by
  intro a
  induction a with
  | nil => intro b c h; simpa using h
  | cons x t ih => intro b c h; exact ih b c (by simpa using h)

theorem strCancelLeft {a m n : String} (h : a ++ m = a ++ n) : m = n := by
  have hd : a.data ++ m.data = a.data ++ n.data := by
    simpa [strData_append] using congrArg String.data h
  have hmn : m.data = n.data := listCancelLeft a.data m.data n.data hd
  cases m; cases n
  rw [show String.mk _ = String.mk _ from congrArg String.mk hmn]

theorem trimPre_self_append (p rest : String) : trimPre p (p ++ rest) = rest := by
  unfold trimPre
  rw [show (p ++ rest).toList = p.toList ++ rest.toList from rfl,
    listStarts_self_append]
  simp only [if_pos]
  rw [show p.toList.length = p.toList.length from rfl, List.drop_left]
  rfl

theorem takeWhile_append_stop {p : Char → Bool} :
    ∀ (l : List Char), (∀ a ∈ l, p a = true) → ∀ (x : Char), p x = false →
      ∀ (r : List Char), (l ++ x :: r).takeWhile p = l := by
  intro l
  induction l with
  | nil =>
      intro _ x hx r
      simp [List.takeWhile_cons, hx]
  | cons a t ih =>
      intro h x hx r
      have ha : p a = true := h a (List.mem_cons_self a t)
      have ht : ∀ b ∈ t, p b = true := fun b hb => h b (List.mem_cons_of_mem a hb)
      simp [List.takeWhile_cons, ha, ih ht x hx r]

theorem baseName_concat (q n : String) (h : slashFree n = true) :
    baseName (q ++ "/" ++ n) = n := by
  unfold baseName
  have hall : ∀ a ∈ n.toList.reverse, (fun c => decide (c ≠ '/')) a = true := by
    intro a ha
    have := List.all_eq_true.mp h a (List.mem_reverse.mp ha)
    simpa using this
  rw [show (q ++ "/" ++ n).toList = (q.toList ++ ['/']) ++ n.toList from rfl,
    List.reverse_append, List.reverse_append]
  simp only [List.reverse_cons, List.reverse_nil, List.nil_append, List.append_assoc,
    List.singleton_append]
  rw [takeWhile_append_stop n.toList.reverse hall '/' (by decide) _]
  cases n
  simp

theorem concat_base_ne {p q n m : String} (hn : slashFree n = true)
    (hm : slashFree m = true) (hne : m ≠ n) : q ++ "/" ++ m ≠ p ++ "/" ++ n := by
  intro h
  have hb := congrArg baseName h
  rw [baseName_concat q m hm, baseName_concat p n hn] at hb
  exact hne hb

theorem concat_key_ne {a m n : String} (h : m ≠ n) :
    a ++ "/" ++ m ≠ a ++ "/" ++ n :=
  fun hc => h (strCancelLeft hc)

theorem strAppend_assoc (a b c : String) : (a ++ b) ++ c = a ++ (b ++ c) := by
  cases a; cases b; cases c
  exact congrArg String.mk (List.append_assoc _ _ _)

theorem supd_self (m : SMap) (k v : String) : supd m k v k = some v := by
  simp [supd]

theorem supd_other (m : SMap) {k k' : String} (v : String) (h : k' ≠ k) :
    supd m k v k' = m k' := by
  simp [supd, h]

end PathLemmas

section CollectorLemmas

theorem collectStoreUpd_pp (fsw : FsW) (target pp : String) (e : AEntry)
    (store : SMap) : collectStoreUpd fsw target pp e store pp = some e.content := by
  by_cases ht : target = ""
  · simp [collectStoreUpd, ht, supd]
  · cases hm : fsw.mkdirErr target with
    | some x => simp [collectStoreUpd, ht, hm, supd]
    | none =>
      cases hw : fsw.writeErr (target ++ "/" ++ e.name) with
      | some x => simp [collectStoreUpd, ht, hm, hw, supd]
      | none =>
        by_cases hp : pp = target ++ "/" ++ e.name
        · simp [collectStoreUpd, ht, hm, hw, supd, hp]
        · simp [collectStoreUpd, ht, hm, hw, supd, hp]

theorem collectStoreUpd_target (fsw : FsW) (target pp : String) (e : AEntry)
    (store : SMap) (ht : target ≠ "") (hm : fsw.mkdirErr target = none)
    (hw : fsw.writeErr (target ++ "/" ++ e.name) = none) :
    collectStoreUpd fsw target pp e store (target ++ "/" ++ e.name) =
      some e.content := by
  simp [collectStoreUpd, ht, hm, hw, supd]

theorem collectStoreUpd_other (fsw : FsW) (target pp : String) (e : AEntry)
    (store : SMap) (p : String) (h1 : p ≠ pp) (h2 : p ≠ target ++ "/" ++ e.name) :
    collectStoreUpd fsw target pp e store p = store p := by
  by_cases ht : target = ""
  · simp [collectStoreUpd, ht, supd, h1]
  · cases hm : fsw.mkdirErr target with
    | some x => simp [collectStoreUpd, ht, hm, supd, h1]
    | none =>
      cases hw : fsw.writeErr (target ++ "/" ++ e.name) with
      | some x => simp [collectStoreUpd, ht, hm, hw, supd, h1]
      | none => simp [collectStoreUpd, ht, hm, hw, supd, h1, h2]

theorem collectLoop_reg_preserve (fsw : FsW) (cid cdir adir target : String) :
    ∀ (rest : List AEntry) (reg store : SMap) (k : String),
      (∀ e ∈ rest, k ≠ cid ++ "/" ++ e.name) →
      (collectLoop fsw cid cdir adir target reg store rest).2.1 k = reg k := by
  intro rest
  induction rest with
  | nil => intro reg store k _; rfl
  | cons e t ih =>
      intro reg store k hk
      have hek : k ≠ cid ++ "/" ++ e.name := hk e (List.mem_cons_self e t)
      have ht : ∀ e' ∈ t, k ≠ cid ++ "/" ++ e'.name :=
        fun e' he' => hk e' (List.mem_cons_of_mem e he')
      simp only [collectLoop]
      split
      · exact ih reg store k ht
      · split
        · exact ih reg store k ht
        · split
          · exact ih reg store k ht
          · rw [show (((_ : String) :: (collectLoop fsw cid cdir adir target _ _ t).1,
                (collectLoop fsw cid cdir adir target _ _ t).2)).2.1 =
                (collectLoop fsw cid cdir adir target _ _ t).2.1 from rfl]
            rw [ih _ _ k ht]
            exact supd_other _ _ hek

theorem collectLoop_store_preserve (fsw : FsW) (cid cdir adir target : String) :
    ∀ (rest : List AEntry) (reg store : SMap) (p : String),
      (∀ e ∈ rest, p ≠ cdir ++ "/" ++ e.name) →
      (∀ e ∈ rest, p ≠ target ++ "/" ++ e.name) →
      (collectLoop fsw cid cdir adir target reg store rest).2.2 p = store p := by
  intro rest
  induction rest with
  | nil => intro reg store p _ _; rfl
  | cons e t ih =>
      intro reg store p hp hq
      have hep : p ≠ cdir ++ "/" ++ e.name := hp e (List.mem_cons_self e t)
      have heq : p ≠ target ++ "/" ++ e.name := hq e (List.mem_cons_self e t)
      have htp : ∀ e' ∈ t, p ≠ cdir ++ "/" ++ e'.name :=
        fun e' he' => hp e' (List.mem_cons_of_mem e he')
      have htq : ∀ e' ∈ t, p ≠ target ++ "/" ++ e'.name :=
        fun e' he' => hq e' (List.mem_cons_of_mem e he')
      simp only [collectLoop]
      split
      · exact ih reg store p htp htq
      · split
        · exact ih reg store p htp htq
        · split
          · exact ih reg store p htp htq
          · rw [show (((_ : String) :: (collectLoop fsw cid cdir adir target _ _ t).1,
                (collectLoop fsw cid cdir adir target _ _ t).2)).2.2 =
                (collectLoop fsw cid cdir adir target _ _ t).2.2 from rfl]
            rw [ih _ _ p htp htq]
            exact collectStoreUpd_other fsw target _ e store p hep heq

theorem collectLoop_spec (fsw : FsW) (cid cdir adir target : String) :
    ∀ (entries : List AEntry) (reg store : SMap) (n b : String),
      (⟨n, b, false⟩ : AEntry) ∈ entries →
      (entries.map AEntry.name).Nodup →
      (∀ e ∈ entries, slashFree e.name = true) →
      fsw.readErr (adir ++ "/" ++ n) = none →
      fsw.writeErr (cdir ++ "/" ++ n) = none →
      ("artifacts://" ++ cid ++ "/" ++ n) ∈
        (collectLoop fsw cid cdir adir target reg store entries).1 ∧
      (collectLoop fsw cid cdir adir target reg store entries).2.1
          (cid ++ "/" ++ n) = some (cdir ++ "/" ++ n) ∧
      (collectLoop fsw cid cdir adir target reg store entries).2.2
          (cdir ++ "/" ++ n) = some b ∧
      (target ≠ "" → fsw.mkdirErr target = none →
        fsw.writeErr (target ++ "/" ++ n) = none →
        (collectLoop fsw cid cdir adir target reg store entries).2.2
            (target ++ "/" ++ n) = some b) := by
  intro entries
  induction entries with
  | nil => intro reg store n b hmem; exact absurd hmem (List.not_mem_nil _)
  | cons e t ih =>
      intro reg store n b hmem hnd hsf hr hw
      have hnd' : (t.map AEntry.name).Nodup := (List.nodup_cons.mp hnd).2
      have hsf' : ∀ e' ∈ t, slashFree e'.name = true :=
        fun e' he' => hsf e' (List.mem_cons_of_mem e he')
      rcases List.mem_cons.mp hmem with heq | hmem'
      · -- the head entry is the file (n, b)
        subst heq
        have hsn : slashFree n = true := hsf _ (List.mem_cons_self _ t)
        have hnod := List.nodup_cons.mp
          (show (n :: t.map AEntry.name).Nodup from hnd)
        have hnt : ∀ e' ∈ t, e'.name ≠ n := by
          intro e' he' hc
          have hmm := List.mem_map_of_mem AEntry.name he'
          rw [hc] at hmm
          exact hnod.1 hmm
        have hne' : ∀ e' ∈ t, n ≠ e'.name := fun e' he' => Ne.symm (hnt e' he')
        simp only [collectLoop, Bool.false_eq_true, if_false, hr, hw]
        refine ⟨by simp, ?_, ?_, ?_⟩
        · rw [collectLoop_reg_preserve fsw cid cdir adir target t _ _ _
            (fun e' he' => concat_key_ne (hne' e' he'))]
          exact supd_self _ _ _
        · rw [collectLoop_store_preserve fsw cid cdir adir target t _ _ _
            (fun e' he' => concat_key_ne (hne' e' he'))
            (fun e' he' => concat_base_ne (hsf' e' he') hsn (hne' e' he'))]
          exact collectStoreUpd_pp fsw target _ _ _
        · intro ht hm hw2
          rw [collectLoop_store_preserve fsw cid cdir adir target t _ _ _
            (fun e' he' => concat_base_ne (hsf' e' he') hsn (hne' e' he'))
            (fun e' he' => concat_key_ne (hne' e' he'))]
          exact collectStoreUpd_target fsw target _ _ _ ht hm hw2
      · -- the file (n, b) lies further down the list
        have hres := ih reg store n b hmem' hnd' hsf' hr hw
        cases hd : e.isDir with
        | true => simpa [collectLoop, hd] using ih reg store n b hmem' hnd' hsf' hr hw
        | false =>
          cases hre : fsw.readErr (adir ++ "/" ++ e.name) with
          | some x =>
              simpa [collectLoop, hd, hre] using
                ih reg store n b hmem' hnd' hsf' hr hw
          | none =>
            cases hwe : fsw.writeErr (cdir ++ "/" ++ e.name) with
            | some x =>
                simpa [collectLoop, hd, hre, hwe] using
                  ih reg store n b hmem' hnd' hsf' hr hw
            | none =>
                have hres' := ih
                  (supd reg (cid ++ "/" ++ e.name) (cdir ++ "/" ++ e.name))
                  (collectStoreUpd fsw target (cdir ++ "/" ++ e.name) e store)
                  n b hmem' hnd' hsf' hr hw
                simp only [collectLoop, hd, hre, hwe]
                exact ⟨List.mem_cons_of_mem _ hres'.1, hres'.2.1, hres'.2.2.1,
                  hres'.2.2.2⟩

end CollectorLemmas

/-- C8: confirmed.  For every regular file `(n, b)` present in the
artifact-output directory at harvest time for execution id `cid` (names
unique and slash-free as `os.ReadDir` guarantees, and with the listing,
the durable-directory creation, and this file's read and durable write
succeeding), collection returns an identifier list containing
`artifacts://cid/n`, and fetching that identifier afterwards yields
exactly the bytes `b` together with the content category computed from the
file name; the category is a pure function of the (lower-cased) file
extension, and any extension outside the known table classifies as
`binary`. -/
theorem C8_artifact_roundtrip (fsw : FsW) (cid adir target : String)
    (entries : List AEntry) (reg store : SMap) (n b : String)
    (hmem : (⟨n, b, false⟩ : AEntry) ∈ entries)
    (hnd : (entries.map AEntry.name).Nodup)
    (hsf : ∀ e ∈ entries, slashFree e.name = true)
    (hlist : fsw.listErr = none)
    (hmk : fsw.mkdirErr (persistentArtifactsDir ++ "/" ++ cid) = none)
    (hr : fsw.readErr (adir ++ "/" ++ n) = none)
    (hw : fsw.writeErr (persistentArtifactsDir ++ "/" ++ cid ++ "/" ++ n) = none) :
    (∃ uris,
      (collectArtifactsFromDir fsw cid adir target entries reg store).1 = .ok uris ∧
      ("artifacts://" ++ cid ++ "/" ++ n) ∈ uris) ∧
    getContainerArtifact
        (collectArtifactsFromDir fsw cid adir target entries reg store).2.1
        (collectArtifactsFromDir fsw cid adir target entries reg store).2.2
        ("artifacts://" ++ cid ++ "/" ++ n) = .ok (b, guessMimeType n) ∧
    (∀ f g : String, extOf f = extOf g → guessMimeType f = guessMimeType g) ∧
    (∀ f : String, ¬ (extOf f).toLower ∈ knownMimeExts → guessMimeType f = "binary") := by
  have hsn : slashFree n = true := hsf _ hmem
  have hne : entries.isEmpty = false := by
    cases entries with
    | nil => exact absurd hmem (List.not_mem_nil _)
    | cons e t => rfl
  have hspec := collectLoop_spec fsw cid (persistentArtifactsDir ++ "/" ++ cid) adir
    target entries reg store n b hmem hnd hsf hr hw
  have hcr : collectArtifactsFromDir fsw cid adir target entries reg store =
      (.ok (collectLoop fsw cid (persistentArtifactsDir ++ "/" ++ cid) adir target
          reg store entries).1,
        (collectLoop fsw cid (persistentArtifactsDir ++ "/" ++ cid) adir target
          reg store entries).2) := by
    simp only [collectArtifactsFromDir, hlist, hne, Bool.false_eq_true, if_false, hmk]
  have huri : "artifacts://" ++ cid ++ "/" ++ n =
      "artifacts://" ++ (cid ++ "/" ++ n) := by
    simp [strAppend_assoc]
  have h1 : (collectArtifactsFromDir fsw cid adir target entries reg store).1 =
      .ok (collectLoop fsw cid (persistentArtifactsDir ++ "/" ++ cid) adir target
        reg store entries).1 := by rw [hcr]
  have h21 : (collectArtifactsFromDir fsw cid adir target entries reg store).2.1 =
      (collectLoop fsw cid (persistentArtifactsDir ++ "/" ++ cid) adir target
        reg store entries).2.1 := by rw [hcr]
  have h22 : (collectArtifactsFromDir fsw cid adir target entries reg store).2.2 =
      (collectLoop fsw cid (persistentArtifactsDir ++ "/" ++ cid) adir target
        reg store entries).2.2 := by rw [hcr]
  refine ⟨⟨_, h1, hspec.1⟩, ?_, ?_, ?_⟩
  · rw [h21, h22]
    simp only [getContainerArtifact, huri, trimPre_self_append, hspec.2.1,
      hspec.2.2.1, baseName_concat (persistentArtifactsDir ++ "/" ++ cid) n hsn]
  · intro f g h
    unfold guessMimeType
    rw [h]
  · intro f h
    have hi : ¬ (extOf f).toLower ∈ imageExts := fun hmm =>
      h (by unfold knownMimeExts; simp [List.mem_append, hmm])
    have hTx : ¬ (extOf f).toLower ∈ textExts := fun hmm =>
      h (by unfold knownMimeExts; simp [List.mem_append, hmm])
    have ha : ¬ (extOf f).toLower ∈ audioExts := fun hmm =>
      h (by unfold knownMimeExts; simp [List.mem_append, hmm])
    have hv : ¬ (extOf f).toLower ∈ videoExts := fun hmm =>
      h (by unfold knownMimeExts; simp [List.mem_append, hmm])
    have hp : ¬ (extOf f).toLower = ".pdf" := fun hmm =>
      h (by unfold knownMimeExts; simp [List.mem_append, hmm])
    unfold guessMimeType mimeOfExt
    simp [hi, hTx, ha, hv, hp]

/-- C8 witness: the theorem applied to a concrete harvest — a directory
holding `plot.png` and `out.txt` — fetching `plot.png` back with category
`image`. -/
theorem C8_witness :
    (∃ uris,
      (collectArtifactsFromDir {} "c1" "/tmp/d/artifacts" ""
          [⟨"plot.png", "PNGDATA", false⟩, ⟨"out.txt", "hi", false⟩]
          semp semp).1 = .ok uris ∧
      ("artifacts://" ++ "c1" ++ "/" ++ "plot.png") ∈ uris) ∧
    getContainerArtifact
        (collectArtifactsFromDir {} "c1" "/tmp/d/artifacts" ""
          [⟨"plot.png", "PNGDATA", false⟩, ⟨"out.txt", "hi", false⟩]
          semp semp).2.1
        (collectArtifactsFromDir {} "c1" "/tmp/d/artifacts" ""
          [⟨"plot.png", "PNGDATA", false⟩, ⟨"out.txt", "hi", false⟩]
          semp semp).2.2
        ("artifacts://" ++ "c1" ++ "/" ++ "plot.png") =
      .ok ("PNGDATA", guessMimeType "plot.png") ∧
    (∀ f g : String, extOf f = extOf g → guessMimeType f = guessMimeType g) ∧
    (∀ f : String, ¬ (extOf f).toLower ∈ knownMimeExts → guessMimeType f = "binary") :=
  C8_artifact_roundtrip {} "c1" "/tmp/d/artifacts" ""
    [⟨"plot.png", "PNGDATA", false⟩, ⟨"out.txt", "hi", false⟩] semp semp
    "plot.png" "PNGDATA" (by decide) (by decide) (by decide) rfl rfl rfl rfl

/-- C10: confirmed.  Every `run_project` invocation that reaches
provisioning creates (or reuses, `os.MkdirAll`) an `artifacts`
subdirectory inside the caller-supplied project directory; no code path
removes it, so the caller's project tree stays mutated even when no
artifacts are produced; and after a fully successful execution every
regular harvested file is also copied into that subdirectory (collection
targets `projectDir/artifacts`). -/
theorem C10_project_dir_mutation (pw : ProjWorld) (cmd : List String)
    (img projectDir lang : String) (reg store : SMap)
    (h1 : pw.clientErr = none) (h2 : pw.progressErr = none)
    (h3 : pw.pullErr = none) (h4 : pw.mkdirTempErr = none)
    (h5 : pw.mkdirProjArtErr = none) :
    (runProjectInDockerM pw cmd img projectDir lang reg
        store).2.1.projArtifactsDirCreated = true ∧
    (runProjectInDockerM pw cmd img projectDir lang reg
        store).2.1.projArtifactsDirRemoved = false ∧
    (∀ (n b : String),
      pw.createErr = none → pw.startErr = none →
      pw.fsw.listErr = none →
      pw.fsw.mkdirErr (persistentArtifactsDir ++ "/" ++ pw.containerId) = none →
      pw.fsw.mkdirErr (projectDir ++ "/artifacts") = none →
      pw.fsw.readErr (pw.tempArtifactsDir ++ "/" ++ n) = none →
      pw.fsw.writeErr
          (persistentArtifactsDir ++ "/" ++ pw.containerId ++ "/" ++ n) = none →
      pw.fsw.writeErr (projectDir ++ "/artifacts" ++ "/" ++ n) = none →
      (⟨n, b, false⟩ : AEntry) ∈ pw.artifactEntries →
      (pw.artifactEntries.map AEntry.name).Nodup →
      (∀ e ∈ pw.artifactEntries, slashFree e.name = true) →
      (runProjectInDockerM pw cmd img projectDir lang reg store).2.2.2
          (projectDir ++ "/artifacts" ++ "/" ++ n) = some b) := by
  refine ⟨?_, ?_, ?_⟩
  · unfold runProjectInDockerM
    simp only [h1, h2, h3, h4, h5]
    repeat' split
    all_goals rfl
  · unfold runProjectInDockerM
    simp only [h1, h2, h3, h4, h5]
    repeat' split
    all_goals rfl
  · intro n b hcr hst hlist hmkp hmkt hrd hwp hwt hmem hnd hsf
    have hne : pw.artifactEntries.isEmpty = false := by
      cases he : pw.artifactEntries with
      | nil => rw [he] at hmem; exact absurd hmem (List.not_mem_nil _)
      | cons x t => rfl
    have htne : projectDir ++ "/artifacts" ≠ "" := by
      intro hc
      have := congrArg String.data hc
      simp [strData_append] at this
    have hspec := collectLoop_spec pw.fsw pw.containerId
      (persistentArtifactsDir ++ "/" ++ pw.containerId) pw.tempArtifactsDir
      (projectDir ++ "/artifacts") pw.artifactEntries reg store n b
      hmem hnd hsf hrd hwp
    have hcoll : collectArtifactsFromDir pw.fsw pw.containerId pw.tempArtifactsDir
        (projectDir ++ "/artifacts") pw.artifactEntries reg store =
        (.ok (collectLoop pw.fsw pw.containerId
            (persistentArtifactsDir ++ "/" ++ pw.containerId) pw.tempArtifactsDir
            (projectDir ++ "/artifacts") reg store pw.artifactEntries).1,
          (collectLoop pw.fsw pw.containerId
            (persistentArtifactsDir ++ "/" ++ pw.containerId) pw.tempArtifactsDir
            (projectDir ++ "/artifacts") reg store pw.artifactEntries).2) := by
      simp only [collectArtifactsFromDir, hlist, hne, Bool.false_eq_true, if_false,
        hmkp]
    unfold runProjectInDockerM
    simp only [h1, h2, h3, h4, h5, hcr, hst, hcoll]
    exact hspec.2.2.2 htne hmkt hwt

/-- C10 witness: the theorem applied to a concrete fully successful
project run that produced one artifact `a.txt`. -/
theorem C10_witness :
    (runProjectInDockerM { artifactEntries := [⟨"a.txt", "x", false⟩] }
        ["python", "main.py"] "img" "/p" "python" semp
        semp).2.1.projArtifactsDirCreated = true ∧
    (runProjectInDockerM { artifactEntries := [⟨"a.txt", "x", false⟩] }
        ["python", "main.py"] "img" "/p" "python" semp
        semp).2.1.projArtifactsDirRemoved = false ∧
    (runProjectInDockerM { artifactEntries := [⟨"a.txt", "x", false⟩] }
        ["python", "main.py"] "img" "/p" "python" semp semp).2.2.2
        ("/p" ++ "/artifacts" ++ "/" ++ "a.txt") = some "x" := by
  have h := C10_project_dir_mutation
    { artifactEntries := [⟨"a.txt", "x", false⟩] } ["python", "main.py"] "img" "/p"
    "python" semp semp rfl rfl rfl rfl rfl
  exact ⟨h.1, h.2.1,
    h.2.2 "a.txt" "x" rfl rfl rfl rfl rfl rfl rfl rfl (by decide) (by decide)
      (by decide)⟩

end Sandbox
